import Mathlib

/-!
Shallow embedding of the `Session` class of `@gemeentenijmegen/session`
(source: the TypeScript `Session` class backed by DynamoDB), together with
models of its external collaborators: the DynamoDB client (a functional
key-value store plus an operation trace and fault injection) and the npm
`cookie` package (parse/serialize, v0.4-style semantics).

Conventions of the embedding:
* JavaScript `undefined` is `Option.none`; fallible JS code returns an
  explicit result type carrying the post-state (exceptions in JS leave the
  mutated `this` and the store behind, so errors carry state too).
* DynamoDB attribute values (`{S: ...}`, `{BOOL: ...}`, `{N: ...}`,
  `{M: ...}`) are the inductive `Dyn`.
* JS objects used as maps keep first-match lookup and replace-or-append
  assignment (JS property semantics).
* `crypto.randomUUID()` is modelled as an explicit oracle argument: the
  freshly drawn token is passed to `createSession` by the environment.
-/

/-- DynamoDB attribute value, as the JS objects `{S: s}`, `{BOOL: b}`,
`{N: n}` (numbers travel as strings) and `{M: map}`. -/
inductive Dyn where
  | S (s : String)
  | BOOL (b : Bool)
  | N (n : String)
  | M (m : List (String × Dyn))

/-- The payload of a single-field attribute-value object: what JS property
access like `{S: "x"}.S` evaluates to. -/
inductive Prim where
  | pstr (s : String)
  | pbool (b : Bool)
  | pmap (m : List (String × Dyn))

/-- JS property access `v?.[t]` on an attribute-value object: yields the
payload when `t` names the object's single field, `undefined` otherwise. -/
def Dyn.prop : Dyn → String → Option Prim
  | .S s, t => if t = "S" then some (.pstr s) else none
  | .BOOL b, t => if t = "BOOL" then some (.pbool b) else none
  | .N n, t => if t = "N" then some (.pstr n) else none
  | .M m, t => if t = "M" then some (.pmap m) else none

/-- An attribute mapping: a JS object with string keys (insertion order,
unique keys, first-match lookup). -/
abbrev AttrMap := List (String × Dyn)

/-- JS object property read `o[k]`: first matching key, else `undefined`. -/
def lookupAssoc {α : Type} : List (String × α) → String → Option α
  | [], _ => none
  | (k', v) :: rest, k => if k = k' then some v else lookupAssoc rest k

/-- JS object property assignment `o[k] = v`: overwrite in place when the
key exists, append otherwise. -/
def putAssoc {α : Type} : List (String × α) → String → α → List (String × α)
  | [], k, v => [(k, v)]
  | (k', v') :: rest, k, v =>
      if k = k' then (k', v) :: rest else (k', v') :: putAssoc rest k v

theorem lookupAssoc_putAssoc_self {α : Type} (m : List (String × α)) (k : String) (v : α) :
    lookupAssoc (putAssoc m k v) k = some v := by
  induction m with
  | nil => simp [putAssoc, lookupAssoc]
  | cons hd tl ih =>
      obtain ⟨k', v'⟩ := hd
      by_cases h : k = k' <;> simp [putAssoc, lookupAssoc, h, ih]

theorem lookupAssoc_putAssoc_ne {α : Type} (m : List (String × α)) (k k' : String) (v : α)
    (hne : k' ≠ k) : lookupAssoc (putAssoc m k v) k' = lookupAssoc m k' := by
  induction m with
  | nil => simp [putAssoc, lookupAssoc, hne]
  | cons hd tl ih =>
      obtain ⟨k0, v0⟩ := hd
      by_cases h : k = k0
      · subst h
        simp [putAssoc, lookupAssoc, hne]
      · by_cases h' : k' = k0 <;> simp [putAssoc, lookupAssoc, h, h', ih]

/-! ## SHA-256 and base64 (the `hash` method: `crypto.createHash('sha256')`
followed by `digest('base64')`), computed over the UTF-8 bytes of the
input string. -/

/-- UTF-8 encoding of a Unicode scalar value (as used both by
`hash.update(string)` and by `encodeURIComponent`). -/
def utf8Bytes (n : Nat) : List Nat :=
  if n < 0x80 then [n]
  else if n < 0x800 then [0xC0 + n / 64, 0x80 + n % 64]
  else if n < 0x10000 then
    [0xE0 + n / 4096, 0x80 + (n / 64) % 64, 0x80 + n % 64]
  else
    [0xF0 + n / 262144, 0x80 + (n / 4096) % 64, 0x80 + (n / 64) % 64, 0x80 + n % 64]

/-- UTF-8 bytes of a string. -/
def strBytes (s : String) : List Nat :=
  s.data.flatMap (fun c => utf8Bytes c.toNat)

/-- Truncate to a 32-bit word. -/
def w32 (x : Nat) : Nat := x % 4294967296

/-- 32-bit rotate right. -/
def rotr32 (n x : Nat) : Nat := w32 ((x >>> n) ||| (x <<< (32 - n)))

def sha2Ch (x y z : Nat) : Nat := (x &&& y) ^^^ ((x ^^^ 4294967295) &&& z)

def sha2Maj (x y z : Nat) : Nat := (x &&& y) ^^^ (x &&& z) ^^^ (y &&& z)

def bigSigma0 (x : Nat) : Nat := rotr32 2 x ^^^ rotr32 13 x ^^^ rotr32 22 x

def bigSigma1 (x : Nat) : Nat := rotr32 6 x ^^^ rotr32 11 x ^^^ rotr32 25 x

def smallSigma0 (x : Nat) : Nat := rotr32 7 x ^^^ rotr32 18 x ^^^ (x >>> 3)

def smallSigma1 (x : Nat) : Nat := rotr32 17 x ^^^ rotr32 19 x ^^^ (x >>> 10)

/-- The 64 SHA-256 round constants. -/
def sha2K : List Nat :=
  [1116352408, 1899447441, 3049323471, 3921009573, 961987163, 1508970993, 2453635748, 2870763221,
   3624381080, 310598401, 607225278, 1426881987, 1925078388, 2162078206, 2614888103, 3248222580,
   3835390401, 4022224774, 264347078, 604807628, 770255983, 1249150122, 1555081692, 1996064986,
   2554220882, 2821834349, 2952996808, 3210313671, 3336571891, 3584528711, 113926993, 338241895,
   666307205, 773529912, 1294757372, 1396182291, 1695183700, 1986661051, 2177026350, 2456956037,
   2730485921, 2820302411, 3259730800, 3345764771, 3516065817, 3600352804, 4094571909, 275423344,
   430227734, 506948616, 659060556, 883997877, 958139571, 1322822218, 1537002063, 1747873779,
   1955562222, 2024104815, 2227730452, 2361852424, 2428436474, 2756734187, 3204031479, 3329325298]

/-- The eight-word SHA-256 working state. -/
structure H8 where
  a : Nat
  b : Nat
  c : Nat
  d : Nat
  e : Nat
  f : Nat
  g : Nat
  h : Nat

def sha2Init : H8 :=
  ⟨1779033703, 3144134277, 1013904242, 2773480762,
   1359893119, 2600822924, 528734635, 1541459225⟩

/-- One compression round. -/
def sha2Round (st : H8) (kw : Nat × Nat) : H8 :=
  let t1 := w32 (st.h + bigSigma1 st.e + sha2Ch st.e st.f st.g + kw.1 + kw.2)
  let t2 := w32 (bigSigma0 st.a + sha2Maj st.a st.b st.c)
  ⟨w32 (t1 + t2), st.a, st.b, st.c, w32 (st.d + t1), st.e, st.f, st.g⟩

/-- Extend the 16 block words to the 64-entry message schedule. -/
def sha2Schedule (ws : List Nat) : List Nat :=
  (List.range 48).foldl
    (fun acc _ =>
      let n := acc.length
      acc ++ [w32 (smallSigma1 (acc.getD (n - 2) 0) + acc.getD (n - 7) 0 +
                   smallSigma0 (acc.getD (n - 15) 0) + acc.getD (n - 16) 0)])
    ws

/-- Compress one 16-word block into the chaining state. -/
def sha2Compress (st : H8) (block : List Nat) : H8 :=
  let ws := sha2Schedule block
  let r := (sha2K.zip ws |>.map (fun p => (p.1, p.2))).foldl
    (fun s kw => sha2Round s (kw.1, kw.2)) st
  ⟨w32 (st.a + r.a), w32 (st.b + r.b), w32 (st.c + r.c), w32 (st.d + r.d),
   w32 (st.e + r.e), w32 (st.f + r.f), w32 (st.g + r.g), w32 (st.h + r.h)⟩

/-- SHA-256 padding: append `0x80`, zeros, and the 64-bit big-endian bit
length, to a multiple of 64 bytes. -/
def sha2Pad (msg : List Nat) : List Nat :=
  let len := msg.length
  let zeros := (64 + 55 - len % 64) % 64
  let bitLen := len * 8
  msg ++ [0x80] ++ List.replicate zeros 0 ++
    [bitLen >>> 56 % 256, bitLen >>> 48 % 256, bitLen >>> 40 % 256, bitLen >>> 32 % 256,
     bitLen >>> 24 % 256, bitLen >>> 16 % 256, bitLen >>> 8 % 256, bitLen % 256]

/-- Split a padded message into 16-word (64-byte) big-endian blocks.
The fuel argument (initially the message length, an upper bound on the
number of blocks) keeps the recursion structural. -/
def sha2BlocksAux : Nat → List Nat → List (List Nat)
  | _, [] => []
  | 0, _ :: _ => []
  | fuel + 1, b :: bs =>
      let chunk := (b :: bs).take 64
      let words := (List.range 16).map (fun i =>
        chunk.getD (4*i) 0 * 16777216 + chunk.getD (4*i+1) 0 * 65536 +
        chunk.getD (4*i+2) 0 * 256 + chunk.getD (4*i+3) 0)
      words :: sha2BlocksAux fuel ((b :: bs).drop 64)

def sha2Blocks (bs : List Nat) : List (List Nat) := sha2BlocksAux bs.length bs

/-- SHA-256 digest (32 bytes) of a byte sequence. -/
def sha256 (msg : List Nat) : List Nat :=
  let fin := (sha2Blocks (sha2Pad msg)).foldl sha2Compress sha2Init
  [fin.a, fin.b, fin.c, fin.d, fin.e, fin.f, fin.g, fin.h].flatMap
    (fun word => [word >>> 24 % 256, word >>> 16 % 256, word >>> 8 % 256, word % 256])

/-- The standard base64 alphabet. -/
def b64Alphabet : List Char :=
  "ABCDEFGHIJKLMNOPQRSTUVWXYZabcdefghijklmnopqrstuvwxyz0123456789+/".data

def b64Char (n : Nat) : Char := b64Alphabet.getD n 'A'

/-- Base64 encoding with `=` padding of a byte sequence. -/
def base64Encode : List Nat → List Char
  | [] => []
  | [b1] =>
      [b64Char (b1 >>> 2), b64Char ((b1 % 4) <<< 4), '=', '=']
  | [b1, b2] =>
      [b64Char (b1 >>> 2), b64Char (((b1 % 4) <<< 4) + (b2 >>> 4)),
       b64Char ((b2 % 16) <<< 2), '=']
  | b1 :: b2 :: b3 :: rest =>
      [b64Char (b1 >>> 2), b64Char (((b1 % 4) <<< 4) + (b2 >>> 4)),
       b64Char (((b2 % 16) <<< 2) + (b3 >>> 6)), b64Char (b3 % 64)] ++ base64Encode rest

/-- `Session.hash`: `crypto.createHash('sha256').update(s).digest('base64')`. -/
def sha256Base64 (s : String) : String :=
  String.mk (base64Encode (sha256 (strBytes s)))


/-! ## `encodeURIComponent` / `decodeURIComponent`
(the value codec the npm `cookie` package applies to cookie values). -/

def hexVal (c : Char) : Option Nat :=
  let n := c.toNat
  if 48 ≤ n ∧ n ≤ 57 then some (n - 48)
  else if 65 ≤ n ∧ n ≤ 70 then some (n - 55)
  else if 97 ≤ n ∧ n ≤ 102 then some (n - 87)
  else none

/-- Lexical token of a percent-encoded string: an escaped byte or a
literal character. -/
inductive PctTok where
  | byte (b : Nat)
  | lit (c : Char)
deriving DecidableEq

/-- First phase of `decodeURIComponent`: resolve `%XX` escapes into bytes
(`none` = malformed escape, the JS `URIError`). -/
def pctTokens : List Char → Option (List PctTok)
  | [] => some []
  | c :: rest =>
    if c = '%' then
      match rest with
      | h :: l :: rest2 =>
        match hexVal h, hexVal l with
        | some hv, some lv => (pctTokens rest2).map (PctTok.byte (16 * hv + lv) :: ·)
        | _, _ => none
      | _ => none
    else (pctTokens rest).map (PctTok.lit c :: ·)

/-- Pending multi-byte UTF-8 sequence while decoding: accumulated value,
number of continuation bytes still expected, and the smallest legal code
point for the sequence length (shortest-form check). -/
structure Pending where
  acc : Nat
  need : Nat
  mincp : Nat

/-- Second phase of `decodeURIComponent`: strict UTF-8 decoding of the
escaped byte runs (overlong forms, surrogates, out-of-range values and
stray or missing continuation bytes are rejected, as in the ECMAScript
Decode algorithm). One token is consumed per step; `p` is the pending
multi-byte sequence, if any. -/
def utf8Fold : Option Pending → List PctTok → Option (List Char)
  | none, [] => some []
  | some _, [] => none
  | none, .lit c :: rest => (utf8Fold none rest).map (c :: ·)
  | none, .byte b :: rest =>
      if b < 0x80 then (utf8Fold none rest).map (Char.ofNat b :: ·)
      else if b < 0xC2 then none
      else if b < 0xE0 then utf8Fold (some ⟨b - 0xC0, 1, 0x80⟩) rest
      else if b < 0xF0 then utf8Fold (some ⟨b - 0xE0, 2, 0x800⟩) rest
      else if b < 0xF5 then utf8Fold (some ⟨b - 0xF0, 3, 0x10000⟩) rest
      else none
  | some _, .lit _ :: _ => none
  | some p, .byte b :: rest =>
      if 0x80 ≤ b ∧ b < 0xC0 then
        let acc := p.acc * 64 + (b - 0x80)
        if p.need = 1 then
          if p.mincp ≤ acc ∧ ¬ (0xD800 ≤ acc ∧ acc < 0xE000) ∧ acc < 0x110000 then
            (utf8Fold none rest).map (Char.ofNat acc :: ·)
          else none
        else utf8Fold (some ⟨acc, p.need - 1, p.mincp⟩) rest
      else none

/-- The byte-run decoder applied from the empty state. -/
def utf8DecTokens (ts : List PctTok) : Option (List Char) := utf8Fold none ts

/-- `decodeURIComponent` at the character-list level (`none` = `URIError`). -/
def decodeUriChars (cs : List Char) : Option (List Char) :=
  (pctTokens cs).bind utf8DecTokens

/-- Whitespace removed by the JS string `trim` (the forms relevant to
cookie headers). -/
def jsWs (c : Char) : Bool := c = ' ' || c = '\t' || c = '\n' || c = '\r'

def trimChars (cs : List Char) : List Char :=
  ((cs.dropWhile jsWs).reverse.dropWhile jsWs).reverse

/-- Prepend a character to the first group of a split result. -/
def consHead (c : Char) : List (List Char) → List (List Char)
  | [] => [[c]]
  | g :: gs => (c :: g) :: gs

/-- JS `str.split(';')` at the character level. -/
def splitSemi : List Char → List (List Char)
  | [] => [[]]
  | c :: rest => if c = ';' then [] :: splitSemi rest else consHead c (splitSemi rest)

/-- One cookie pair `key=value`: everything before the first `=`. -/
def keyOf (cs : List Char) : List Char := trimChars (cs.takeWhile (· ≠ '='))

/-- One cookie pair: everything after the first `=`, trimmed. -/
def valRaw (cs : List Char) : List Char := trimChars ((cs.dropWhile (· ≠ '=')).tail)

/-- The quoted-value unwrapping of `cookie.parse`:
`if ('"' == val[0]) val = val.slice(1, -1)`. -/
def unquote (cs : List Char) : List Char :=
  if cs.head? = some '"' then cs.tail.dropLast else cs

/-- `tryDecode`: `decodeURIComponent` with the `URIError` caught, falling
back to the raw value. -/
def tryDecode (cs : List Char) : List Char := (decodeUriChars cs).getD cs

/-- Process one `;`-separated pair: skip pairs without `=`, first
occurrence of a key wins. -/
def addPair (acc : List (String × String)) (pair : List Char) : List (String × String) :=
  if pair.any (· = '=') then
    let key := String.mk (keyOf pair)
    if (lookupAssoc acc key).isSome then acc
    else acc ++ [(key, String.mk (tryDecode (unquote (valRaw pair))))]
  else acc

/-- `cookie.parse`: split on `;`, trim, unquote, URI-decode each value. -/
def cookieParse (s : String) : List (String × String) :=
  (splitSemi s.data).foldl addPair []

/-- The JS value of the `sessionId` field: a string, literal `false`, or
`undefined` (which `getSessionId` can return when the parsed header has
no `session` key). -/
inductive CookieVal where
  | str (s : String)
  | fls
  | undefined
deriving DecidableEq

/-- JS truthiness of `sessionId` (`if (this.sessionId)`). -/
def CookieVal.truthy : CookieVal → Bool
  | .str s => s ≠ ""
  | .fls => false
  | .undefined => false

/-- `Session.getSessionId`: returns `false` on an empty header; otherwise
parses the header and evaluates `cookies?.session != ''` — for a missing
`session` key that loose comparison is true (`undefined != ''`), so the
JS function returns `undefined`, not `false`. -/
def getSessionId (cookieString : String) : CookieVal :=
  if cookieString = "" then .fls
  else
    match lookupAssoc (cookieParse cookieString) "session" with
    | some v => if v = "" then .fls else .str v
    | none => .undefined

/-- A DynamoDB item: attribute name → attribute value (the shape of both
a `PutItemCommand.Item` and a `GetItemCommandOutput.Item`). -/
abbrev DbItem := List (String × Dyn)

/-- The commands the `Session` class sends. -/
inductive Cmd where
  | getItem (table key : String)
  | putItem (table key : String) (data : AttrMap) (ttl : String)
  | updateItem (table key : String) (data : AttrMap) (ttl : String)

def Cmd.isWrite : Cmd → Bool
  | .getItem _ _ => false
  | .putItem _ _ _ _ => true
  | .updateItem _ _ _ _ => true

/-- The storage key (`Key.sessionid` / `Item.sessionid`) of a command. -/
def Cmd.key : Cmd → String
  | .getItem _ k => k
  | .putItem _ k _ _ => k
  | .updateItem _ k _ _ => k

/-- The environment of one request: store contents, fault schedule (one
entry consumed per `send`; `true` = the call fails), the
`process.env.SESSION_TABLE` value, the clock (`Date.now()` in
milliseconds, constant within a request) and the issued-command trace. -/
structure World where
  store : List (String × DbItem)
  faults : List Bool
  table : String
  nowMs : Nat
  trace : List Cmd

/-- Effect of a `PutItemCommand` built by `createSession`. -/
def applyPut (store : List (String × DbItem)) (k : String) (d : AttrMap) (t : String) :
    List (String × DbItem) :=
  putAssoc store k [("sessionid", Dyn.S k), ("data", Dyn.M d), ("ttl", Dyn.N t)]

/-- Effect of the `UpdateItemCommand` `SET #ttl = :ttl, #data = :data`:
DynamoDB upserts, creating the item when absent. -/
def applyUpd (store : List (String × DbItem)) (k : String) (d : AttrMap) (t : String) :
    List (String × DbItem) :=
  match lookupAssoc store k with
  | some it => putAssoc store k (putAssoc (putAssoc it "ttl" (Dyn.N t)) "data" (Dyn.M d))
  | none => putAssoc store k [("sessionid", Dyn.S k), ("ttl", Dyn.N t), ("data", Dyn.M d)]

/-- `dbClient.send`: the command is recorded as issued either way; the
fault schedule decides whether it raises or applies. A get returns the
found `Item` or `undefined`. -/
def dbSend (w : World) (c : Cmd) : World × Except Unit (Option DbItem) :=
  let fail := w.faults.headD false
  let w1 := { w with trace := w.trace ++ [c], faults := w.faults.tail }
  if fail then (w1, .error ())
  else
    match c with
    | .getItem _ k => (w1, .ok (lookupAssoc w.store k))
    | .putItem _ k d t => ({ w1 with store := applyPut w.store k d t }, .ok none)
    | .updateItem _ k d t => ({ w1 with store := applyUpd w.store k d t }, .ok none)

/-! ## The `Session` class itself. -/

/-- `GetItemCommandOutput`: the response object cached in `this.session`. -/
structure GetOut where
  Item : Option DbItem

/-- `SessionOptions` (`ttlInMinutes`, default 15; modelled as an integer
number of minutes). -/
structure SessionOptions where
  ttlInMinutes : Nat

/-- The mutable fields of a `Session` instance. The `dbClient` lives in
`World`; `crypto.randomUUID()` results are supplied as oracle arguments.
The declared-but-never-assigned TS field `state` is omitted. `sessionHash`
is `false` or a base64 SHA-256 digest, never the empty string, so the
JS truthiness test on it is the `Option` match. -/
structure SessionState where
  sessionId : CookieVal
  sessionHash : Option String
  session : Option GetOut
  ttl : Nat

/-- The failures `Session` methods can raise. -/
inductive Err where
  | storeErr      -- DynamoDB error, logged and rethrown
  | noSessionId   -- 'no sessionid, cannot update empty session'
  | noPriorData   -- 'Session had no data before, was this a valid session?'
  | typeErr       -- JS TypeError (property access/assignment on undefined)
deriving DecidableEq

/-- Method result. JS exceptions carry the post-state of `this` and of
the world: thrown errors do not roll back mutations already made. -/
inductive MRes (α : Type) where
  | ok (s : SessionState) (w : World) (val : α)
  | err (e : Err) (s : SessionState) (w : World)

def MRes.st {α : Type} : MRes α → SessionState
  | .ok s _ _ => s
  | .err _ s _ => s

def MRes.world {α : Type} : MRes α → World
  | .ok _ w _ => w
  | .err _ _ w => w

def MRes.isOk {α : Type} : MRes α → Bool
  | .ok _ _ _ => true
  | .err _ _ _ => false

/-- The `Session` constructor: parse the cookie, hash the token when
truthy, record the TTL option (`options?.ttlInMinutes ?? 15`). -/
def construct (cookieString : String) (options : Option SessionOptions) : SessionState :=
  let sid := getSessionId cookieString
  { sessionId := sid
  , sessionHash :=
      match sid with
      | .str s => if s = "" then none else some (sha256Base64 s)
      | _ => none
  , session := none
  , ttl := (options.map (fun o => o.ttlInMinutes)).getD 15 }

/-- `ttlFromMinutes`: `Math.floor(now.getTime() / 1000 + minutes * 60)`
rendered to decimal for the `{N: ...}` attribute (the clock is in
milliseconds). -/
def ttlFromMinutes (nowMs minutes : Nat) : String :=
  toString (Nat.floor ((nowMs : ℚ) / 1000 + (minutes : ℚ) * 60))

/-- With an integer number of minutes the floor distributes to integer
division of the millisecond clock. -/
theorem ttlFromMinutes_eq (nowMs minutes : Nat) :
    ttlFromMinutes nowMs minutes = toString (nowMs / 1000 + minutes * 60) := by
  unfold ttlFromMinutes
  congr 1
  have h1 : ((minutes : ℚ) * 60) = ((minutes * 60 : Nat) : ℚ) := by push_cast; ring
  have h2 : ((nowMs : ℚ) / 1000) = ((nowMs : ℚ) / ((1000 : Nat) : ℚ)) := by norm_num
  rw [h1, h2, Nat.floor_add_nat (by positivity), Nat.floor_div_nat, Nat.floor_natCast]

/-- `this.session?.Item?.data` (fully optional-chained, cannot throw). -/
def cachedData (s : SessionState) : Option Dyn :=
  s.session.bind (fun g => g.Item.bind (fun it => lookupAssoc it "data"))

/-- The `M` property of an attribute value, as used by `data?.M`. -/
def propM : Dyn → Option AttrMap
  | .M m => some m
  | _ => none

/-- `this.session?.Item?.data?.M`. -/
def cachedM (s : SessionState) : Option AttrMap :=
  (cachedData s).bind propM

/-- `Session.init`: no-op returning `false` without a resolved key;
otherwise a `GetItemCommand` keyed by the hash; a store failure is logged
and rethrown; a response without `Item.data` is `false` and is not
cached. -/
def init (s : SessionState) (w : World) : MRes (Option GetOut) :=
  match s.sessionHash with
  | none => .ok s w none
  | some h =>
    match dbSend w (.getItem w.table h) with
    | (w1, .error _) => .err .storeErr s w1
    | (w1, .ok itemOpt) =>
      let res : GetOut := ⟨itemOpt⟩
      if (itemOpt.bind (fun it => lookupAssoc it "data")).isSome then
        .ok { s with session := some res } w1 (some res)
      else .ok s w1 none

/-- `getValue(key, type)` (the TS default for `type` is `'S'`):
`this.session?.Item?.data?.M[key]?.[type]`. The optional chain guards
`session`, `Item` and `data`; when `data` exists without an `M` field the
index into `undefined` throws a `TypeError`. -/
def getValue (s : SessionState) (key type : String) : Except Err (Option Prim) :=
  match cachedData s with
  | none => .ok none
  | some d =>
    match propM d with
    | none => .error .typeErr
    | some m => .ok ((lookupAssoc m key).bind (fun v => v.prop type))

/-- `isLoggedIn`: `this.getValue('loggedin', 'BOOL') ?? false`. -/
def isLoggedIn (s : SessionState) : Except Err Prim :=
  match getValue s "loggedin" "BOOL" with
  | .error e => .error e
  | .ok none => .ok (.pbool false)
  | .ok (some p) => .ok p

/-- The in-place assignment `this.session.Item.data.M = m`. Callers
perform it only when the `session.Item.data.M` chain exists, so replacing
the `data` attribute by `{M: m}` is exact. -/
def setCachedM (s : SessionState) (m : AttrMap) : SessionState :=
  { s with session := s.session.map (fun g => ⟨g.Item.map (fun it => putAssoc it "data" (Dyn.M m))⟩) }

/-- `updateSession(sessionData)`: throws without a resolved key; issues
the `UpdateItemCommand` (recomputing the TTL); rethrows store failures;
then requires a cached `data.M` (else throws, after the write) and
replaces it with `sessionData`. -/
def updateSession (s : SessionState) (w : World) (sessionData : AttrMap) : MRes Unit :=
  match s.sessionHash with
  | none => .err .noSessionId s w
  | some h =>
    let ttl := ttlFromMinutes w.nowMs s.ttl
    match dbSend w (.updateItem w.table h sessionData ttl) with
    | (w1, .error _) => .err .storeErr s w1
    | (w1, .ok _) =>
      match cachedM s with
      | none => .err .noPriorData s w1
      | some _ => .ok (setCachedM s sessionData) w1 ()

/-- `createSession(sessionData)`: hash a fresh `crypto.randomUUID()`
token (the oracle argument `uuid`), put the record, and only after the
put succeeds assign `this.sessionId`; the put's failure propagates with
`sessionHash` already overwritten. The cached `this.session` is NOT
touched. -/
def createSession (s : SessionState) (w : World) (sessionData : AttrMap) (uuid : String) :
    MRes String :=
  let h := sha256Base64 uuid
  let s1 := { s with sessionHash := some h }
  let ttl := ttlFromMinutes w.nowMs s.ttl
  match dbSend w (.putItem w.table h sessionData ttl) with
  | (w1, .error _) => .err .storeErr s1 w1
  | (w1, .ok _) => .ok { s1 with sessionId := .str uuid } w1 uuid

/-- `setValue(key, value)`: load first when nothing is cached; then
`data.M[key] = {S: value}` mutates the cached object in place (aliasing
`this.session`), and the merged map is written through `updateSession`.
A missing `data` or missing `M` makes the assignment throw a `TypeError`
before any write. -/
def setValue (s : SessionState) (w : World) (key value : String) : MRes Unit :=
  let step := fun (s1 : SessionState) (w1 : World) =>
    match cachedData s1 with
    | none => MRes.err .typeErr s1 w1
    | some d =>
      match propM d with
      | none => MRes.err .typeErr s1 w1
      | some m =>
        let merged := putAssoc m key (Dyn.S value)
        updateSession (setCachedM s1 merged) w1 merged
  if (cachedData s).isSome then step s w
  else
    match init s w with
    | .ok s1 w1 _ => step s1 w1
    | .err e s1 w1 => .err e s1 w1

/-! ### JS loose equality of a string with `false`

`getCookie` computes `(this.sessionId != false) ? this.sessionId : ''`
with the JS loose comparison. A string compares loosely equal to `false`
exactly when `ToNumber(string)` is `±0`: the string is trimmed (the
whitespace model is shared with the header trim), an empty remainder is
`0`, and otherwise the remainder must be a `StringNumericLiteral` whose
exact mathematical value rounds (ties to even) to the IEEE-754 double
zero — including by underflow for tiny literals such as `"1e-1100"`,
whose magnitude is at most `2 ^ (-1075)`, half the least subnormal.
Strings such as `"0"`, `" "`, `"0.0"`, `"0x0"` or `"1e-1100"` are loosely
equal to `false`; an unparsable string is `NaN`, never equal. -/

theorem splitSemi_no_semi (a : List Char) (ha : ∀ c ∈ a, c ≠ ';') :
    splitSemi a = [a] := by
  induction a with
  | nil => rfl
  | cons c rest ih =>
      have hc : c ≠ ';' := ha c (by simp)
      have ih' := ih (fun x hx => ha x (by simp [hx]))
      simp only [splitSemi, if_neg hc, ih']
      rfl

theorem dbSend_get_ok (w : World) (t k : String) (hf : w.faults = []) :
    dbSend w (.getItem t k) =
      ({ w with trace := w.trace ++ [.getItem t k], faults := [] },
        .ok (lookupAssoc w.store k)) := by
  unfold dbSend
  rw [hf]
  rfl

theorem dbSend_put_ok (w : World) (t k : String) (d : AttrMap) (ttl : String)
    (hf : w.faults = []) :
    dbSend w (.putItem t k d ttl) =
      ({ w with
          trace := w.trace ++ [.putItem t k d ttl]
          faults := []
          store := applyPut w.store k d ttl }, .ok none) := by
  unfold dbSend
  rw [hf]
  rfl

theorem dbSend_update_ok (w : World) (t k : String) (d : AttrMap) (ttl : String)
    (hf : w.faults = []) :
    dbSend w (.updateItem t k d ttl) =
      ({ w with
          trace := w.trace ++ [.updateItem t k d ttl]
          faults := []
          store := applyUpd w.store k d ttl }, .ok none) := by
  unfold dbSend
  rw [hf]
  rfl

theorem dbSend_fault (w : World) (c : Cmd) (rest : List Bool) (hf : w.faults = true :: rest) :
    dbSend w c = ({ w with trace := w.trace ++ [c], faults := rest }, .error ()) := by
  unfold dbSend
  rw [hf]
  rfl

/-- The trace records the command whether or not the send fails. -/
theorem dbSend_trace (w : World) (c : Cmd) : (dbSend w c).1.trace = w.trace ++ [c] := by
  unfold dbSend
  by_cases h : w.faults.head?.getD false = true
  · simp [h]
  · cases c <;> simp [h]

theorem updateSession_no_key (s : SessionState) (w : World) (m : AttrMap)
    (hh : s.sessionHash = none) :
    updateSession s w m = MRes.err Err.noSessionId s w := by
  unfold updateSession
  rw [hh]

theorem updateSession_ok (s : SessionState) (w : World) (m m0 : AttrMap) (k : String)
    (hk : s.sessionHash = some k) (hc : cachedM s = some m0) (hf : w.faults = []) :
    updateSession s w m = MRes.ok (setCachedM s m)
      { w with
        trace := w.trace ++ [.updateItem w.table k m (ttlFromMinutes w.nowMs s.ttl)]
        faults := []
        store := applyUpd w.store k m (ttlFromMinutes w.nowMs s.ttl) } () := by
  obtain ⟨sid, sh, sess, ttl⟩ := s
  simp only at hk
  subst hk
  simp only [updateSession, dbSend_update_ok _ _ _ _ _ hf, hc]

theorem updateSession_noPrior (s : SessionState) (w : World) (m : AttrMap) (k : String)
    (hk : s.sessionHash = some k) (hc : cachedM s = none) (hf : w.faults = []) :
    updateSession s w m = MRes.err Err.noPriorData s
      { w with
        trace := w.trace ++ [.updateItem w.table k m (ttlFromMinutes w.nowMs s.ttl)]
        faults := []
        store := applyUpd w.store k m (ttlFromMinutes w.nowMs s.ttl) } := by
  obtain ⟨sid, sh, sess, ttl⟩ := s
  simp only at hk
  subst hk
  simp only [updateSession, dbSend_update_ok _ _ _ _ _ hf, hc]

theorem updateSession_fault (s : SessionState) (w : World) (m : AttrMap) (k : String)
    (rest : List Bool) (hk : s.sessionHash = some k) (hf : w.faults = true :: rest) :
    updateSession s w m = MRes.err Err.storeErr s
      { w with
        trace := w.trace ++ [.updateItem w.table k m (ttlFromMinutes w.nowMs s.ttl)]
        faults := rest } := by
  obtain ⟨sid, sh, sess, ttl⟩ := s
  simp only at hk
  subst hk
  simp only [updateSession, dbSend_fault _ _ _ hf]

theorem createSession_ok (s : SessionState) (w : World) (m : AttrMap) (uuid : String)
    (hf : w.faults = []) :
    createSession s w m uuid = MRes.ok
      { s with
        sessionHash := some (sha256Base64 uuid)
        sessionId := .str uuid }
      { w with
        trace := w.trace ++ [.putItem w.table (sha256Base64 uuid) m (ttlFromMinutes w.nowMs s.ttl)]
        faults := []
        store := applyPut w.store (sha256Base64 uuid) m (ttlFromMinutes w.nowMs s.ttl) }
      uuid := by
  simp only [createSession, dbSend_put_ok _ _ _ _ _ hf]

theorem init_no_key (s : SessionState) (w : World) (hh : s.sessionHash = none) :
    init s w = MRes.ok s w none := by
  unfold init
  rw [hh]

theorem init_found (s : SessionState) (w : World) (k : String) (it : DbItem)
    (hk : s.sessionHash = some k) (hf : w.faults = [])
    (hst : lookupAssoc w.store k = some it) (hd : (lookupAssoc it "data").isSome = true) :
    init s w = MRes.ok { s with session := some ⟨some it⟩ }
      { w with
        trace := w.trace ++ [.getItem w.table k]
        faults := [] } (some ⟨some it⟩) := by
  obtain ⟨sid, sh, sess, ttl⟩ := s
  simp only at hk
  subst hk
  simp only [init, dbSend_get_ok _ _ _ hf]
  simp [hst, hd]

theorem cachedData_of_cachedM (s : SessionState) (m0 : AttrMap) (hc : cachedM s = some m0) :
    cachedData s = some (Dyn.M m0) := by
  unfold cachedM at hc
  cases hd : cachedData s with
  | none => rw [hd] at hc; exact absurd hc (by simp)
  | some d =>
      rw [hd] at hc
      cases d with
      | M mm =>
          simp [propM] at hc
          rw [hc]
      | S v => exact absurd hc (by simp [propM])
      | BOOL b => exact absurd hc (by simp [propM])
      | N n => exact absurd hc (by simp [propM])

theorem cachedData_setCachedM (s : SessionState) (m m0 : AttrMap)
    (hc : cachedM s = some m0) : cachedData (setCachedM s m) = some (Dyn.M m) := by
  have hd := cachedData_of_cachedM s m0 hc
  obtain ⟨sid, sh, sess, ttl⟩ := s
  unfold cachedData at hd ⊢
  unfold setCachedM
  simp only at hd ⊢
  cases sess with
  | none => exact absurd hd (by simp)
  | some g =>
      obtain ⟨itm⟩ := g
      cases itm with
      | none => exact absurd hd (by simp)
      | some it => simp [lookupAssoc_putAssoc_self]

theorem cachedM_setCachedM (s : SessionState) (m m0 : AttrMap) (hc : cachedM s = some m0) :
    cachedM (setCachedM s m) = some m := by
  unfold cachedM
  rw [cachedData_setCachedM s m m0 hc]
  rfl

theorem setCachedM_sessionHash (s : SessionState) (m : AttrMap) :
    (setCachedM s m).sessionHash = s.sessionHash := rfl

theorem getValue_of_cachedData_M (s : SessionState) (m : AttrMap)
    (h : cachedData s = some (Dyn.M m)) (key type : String) :
    getValue s key type = .ok ((lookupAssoc m key).bind (fun v => v.prop type)) := by
  unfold getValue
  rw [h]
  rfl

theorem setValue_no_key (s : SessionState) (w : World) (key value : String)
    (hh : s.sessionHash = none) (hsess : s.session = none) :
    setValue s w key value = MRes.err Err.typeErr s w := by
  have hcd : cachedData s = none := by unfold cachedData; rw [hsess]; rfl
  unfold setValue
  simp [hcd, init_no_key s w hh]

/-- `setValue` on a loaded handle: skips `init`, merges in place, and
writes through `updateSession` with the already-mutated cache. -/
theorem setValue_loaded (s : SessionState) (w : World) (m0 : AttrMap) (key value : String)
    (hc : cachedM s = some m0) :
    setValue s w key value =
      updateSession (setCachedM s (putAssoc m0 key (Dyn.S value))) w
        (putAssoc m0 key (Dyn.S value)) := by
  have hcd := cachedData_of_cachedM s m0 hc
  unfold setValue
  simp only [hcd, Option.isSome_some, if_true, propM]

theorem init_world_trace (s : SessionState) (w : World) (k : String)
    (hk : s.sessionHash = some k) :
    (init s w).world.trace = w.trace ++ [Cmd.getItem w.table k] := by
  obtain ⟨sid, sh, sess, tl⟩ := s
  simp only at hk
  subst hk
  unfold init
  rcases hdb : dbSend w (.getItem w.table k) with ⟨w1, r⟩
  have ht := dbSend_trace w (.getItem w.table k)
  rw [hdb] at ht
  have ht2 : w1.trace = w.trace ++ [Cmd.getItem w.table k] := ht
  simp only [hdb]
  cases r with
  | error e => simpa [MRes.world] using ht2
  | ok a =>
      by_cases hco : (a.bind (fun it => lookupAssoc it "data")).isSome = true <;>
        simp [MRes.world, hco, ht2]

theorem updateSession_world_trace (s : SessionState) (w : World) (m : AttrMap) (k : String)
    (hk : s.sessionHash = some k) :
    (updateSession s w m).world.trace =
      w.trace ++ [Cmd.updateItem w.table k m (ttlFromMinutes w.nowMs s.ttl)] := by
  obtain ⟨sid, sh, sess, tl⟩ := s
  simp only at hk
  subst hk
  unfold updateSession
  rcases hdb : dbSend w (.updateItem w.table k m (ttlFromMinutes w.nowMs tl)) with ⟨w1, r⟩
  have ht := dbSend_trace w (.updateItem w.table k m (ttlFromMinutes w.nowMs tl))
  rw [hdb] at ht
  have ht2 : w1.trace = w.trace ++ [Cmd.updateItem w.table k m (ttlFromMinutes w.nowMs tl)] := ht
  simp only [hdb]
  cases r with
  | error e => simpa [MRes.world] using ht2
  | ok a =>
      cases hcm : cachedM ⟨sid, some k, sess, tl⟩ <;> simp [MRes.world, hcm, ht2]

theorem createSession_world_trace (s : SessionState) (w : World) (m : AttrMap)
    (uuid : String) :
    (createSession s w m uuid).world.trace =
      w.trace ++ [Cmd.putItem w.table (sha256Base64 uuid) m (ttlFromMinutes w.nowMs s.ttl)] := by
  unfold createSession
  rcases hdb : dbSend w
    (.putItem w.table (sha256Base64 uuid) m (ttlFromMinutes w.nowMs s.ttl)) with ⟨w1, r⟩
  have ht := dbSend_trace w
    (.putItem w.table (sha256Base64 uuid) m (ttlFromMinutes w.nowMs s.ttl))
  rw [hdb] at ht
  have ht2 : w1.trace =
      w.trace ++ [Cmd.putItem w.table (sha256Base64 uuid) m (ttlFromMinutes w.nowMs s.ttl)] := ht
  simp only [hdb]
  cases r with
  | error e => simpa [MRes.world] using ht2
  | ok a => simpa [MRes.world] using ht2

theorem base64Encode_length (bs : List Nat) :
    (base64Encode bs).length = 4 * ((bs.length + 2) / 3) := by
  induction bs using base64Encode.induct <;> (simp [base64Encode, *]; try omega)

theorem sha256_length (msg : List Nat) : (sha256 msg).length = 32 := rfl

theorem sha256Base64_length (s : String) : (sha256Base64 s).length = 44 := by
  show (base64Encode (sha256 (strBytes s))).length = 44
  rw [base64Encode_length, sha256_length]

/-- A token whose length differs from 44 can never equal its own digest:
the base64 SHA-256 digest always has exactly 44 characters. -/
theorem sha256Base64_ne_of_length (t : String) (h : t.length ≠ 44) : sha256Base64 t ≠ t := by
  intro he
  rw [← he] at h
  exact h (sha256Base64_length t)

/-- A canonical small world for concrete runs. -/
def wEx : World :=
  { store := []
  , faults := []
  , table := "sessions-table"
  , nowMs := 1700000000123
  , trace := [] }

/-- A handle with a resolved key whose record was loaded: the shape
`init` produces from a store record. -/
def sLoaded : SessionState :=
  { sessionId := .str "12345"
  , sessionHash := some (sha256Base64 "12345")
  , session := some ⟨some [("sessionid", Dyn.S (sha256Base64 "12345")),
      ("data", Dyn.M [("loggedin", Dyn.BOOL true), ("bsn", Dyn.S "12345678")]),
      ("ttl", Dyn.N "1700000000000")]⟩
  , ttl := 15 }

/-- A handle with a resolved key but no cached record (nothing was ever
loaded or created on it). -/
def sStale : SessionState :=
  { sessionId := .str "12345"
  , sessionHash := some (sha256Base64 "12345")
  , session := none
  , ttl := 15 }

/-- C2: on a handle with a resolved key but no cached attribute mapping
(nothing was ever loaded or created on it), updateSession fails loudly
with the 'Session had no data before' error instead of silently
succeeding, and the failure occurs after the store write was issued: the
returned world's trace has gained the UpdateItemCommand. -/
theorem updateSession_stale_handle_throws_after_write (s : SessionState) (w : World)
    (m : AttrMap) (k : String) (hk : s.sessionHash = some k) (hc : cachedM s = none)
    (hf : w.faults = []) :
    ∃ w1, updateSession s w m = MRes.err Err.noPriorData s w1 ∧
      w1.trace = w.trace ++ [Cmd.updateItem w.table k m (ttlFromMinutes w.nowMs s.ttl)] :=
  ⟨_, updateSession_noPrior s w m k hk hc hf, rfl⟩

theorem updateSession_stale_handle_throws_after_write_witness :
    sStale.sessionHash = some (sha256Base64 "12345") ∧ cachedM sStale = none ∧
      wEx.faults = [] ∧
      ∃ w1, updateSession sStale wEx [("a", Dyn.S "b")] = MRes.err Err.noPriorData sStale w1 ∧
        w1.trace = wEx.trace ++ [Cmd.updateItem wEx.table (sha256Base64 "12345")
          [("a", Dyn.S "b")] (ttlFromMinutes wEx.nowMs sStale.ttl)] :=
  ⟨rfl, rfl, rfl,
    updateSession_stale_handle_throws_after_write sStale wEx [("a", Dyn.S "b")]
      (sha256Base64 "12345") rfl rfl rfl⟩

/-- C3: a handle constructed from an empty or session-less cookie header
has no resolved key; on it, updateSession throws the 'no sessionid' error
and setValue throws a TypeError, and both return the world exactly as it
was: zero store calls are performed. -/
theorem no_key_mutations_fail_without_store_calls (cookieString : String)
    (options : Option SessionOptions) (w : World) (m : AttrMap) (key value : String)
    (h : (getSessionId cookieString).truthy = false) :
    updateSession (construct cookieString options) w m =
      MRes.err Err.noSessionId (construct cookieString options) w ∧
    setValue (construct cookieString options) w key value =
      MRes.err Err.typeErr (construct cookieString options) w := by
  have hh : (construct cookieString options).sessionHash = none := by
    show (match getSessionId cookieString with
      | CookieVal.str s => if s = "" then none else some (sha256Base64 s)
      | _ => none) = none
    cases hsid : getSessionId cookieString with
    | str v =>
        rw [hsid] at h
        simp only [CookieVal.truthy, decide_eq_false_iff_not, ne_eq, not_not] at h
        simp [h]
    | fls => rfl
    | undefined => rfl
  exact ⟨updateSession_no_key _ w m hh, setValue_no_key _ w key value hh rfl⟩

theorem no_key_mutations_fail_without_store_calls_witness :
    (getSessionId "").truthy = false ∧ (getSessionId "foo=bar").truthy = false ∧
    updateSession (construct "" none) wEx [("a", Dyn.S "b")] =
      MRes.err Err.noSessionId (construct "" none) wEx ∧
    setValue (construct "foo=bar" none) wEx "k" "v" =
      MRes.err Err.typeErr (construct "foo=bar" none) wEx :=
  ⟨by decide, by decide,
    (no_key_mutations_fail_without_store_calls "" none wEx [("a", Dyn.S "b")] "k" "v"
      (by decide)).1,
    (no_key_mutations_fail_without_store_calls "foo=bar" none wEx [("a", Dyn.S "b")] "k" "v"
      (by decide)).2⟩

/-- C6: after a successful updateSession m on a loaded handle, the cached
attribute mapping is exactly m, and every subsequent getValue on the same
handle is answered from m alone — getValue is a pure function of the
handle state, taking no store/world argument, so no store contact can
occur. -/
theorem updateSession_replaces_cache (s : SessionState) (w : World) (m m0 : AttrMap)
    (k : String) (hk : s.sessionHash = some k) (hc : cachedM s = some m0)
    (hf : w.faults = []) :
    ∃ s1 w1, updateSession s w m = MRes.ok s1 w1 () ∧ cachedM s1 = some m ∧
      ∀ key type, getValue s1 key type =
        .ok ((lookupAssoc m key).bind (fun v => v.prop type)) :=
  ⟨_, _, updateSession_ok s w m m0 k hk hc hf, cachedM_setCachedM s m m0 hc,
    fun key type => getValue_of_cachedData_M _ m (cachedData_setCachedM s m m0 hc) key type⟩

theorem updateSession_replaces_cache_witness :
    sLoaded.sessionHash = some (sha256Base64 "12345") ∧
    cachedM sLoaded = some [("loggedin", Dyn.BOOL true), ("bsn", Dyn.S "12345678")] ∧
    ∃ s1 w1, updateSession sLoaded wEx [("state", Dyn.S "new")] = MRes.ok s1 w1 () ∧
      cachedM s1 = some [("state", Dyn.S "new")] ∧
      ∀ key type, getValue s1 key type =
        .ok ((lookupAssoc [("state", Dyn.S "new")] key).bind (fun v => v.prop type)) :=
  ⟨rfl, rfl,
    updateSession_replaces_cache sLoaded wEx [("state", Dyn.S "new")]
      [("loggedin", Dyn.BOOL true), ("bsn", Dyn.S "12345678")] (sha256Base64 "12345")
      rfl rfl rfl⟩

/-- C7: setValue k v on a loaded handle makes getValue k return v, leaves
getValue unchanged on every other key, and performs the write as one
single UpdateItemCommand carrying the merged mapping (the old cached
mapping with k overwritten, all other keys preserved in place). -/
theorem setValue_then_getValue_frame (s : SessionState) (w : World) (m0 : AttrMap)
    (k key value : String) (hk : s.sessionHash = some k) (hc : cachedM s = some m0)
    (hf : w.faults = []) :
    ∃ s1 w1, setValue s w key value = MRes.ok s1 w1 () ∧
      getValue s1 key "S" = .ok (some (.pstr value)) ∧
      (∀ key2 type, key2 ≠ key → getValue s1 key2 type = getValue s key2 type) ∧
      w1.trace = w.trace ++ [Cmd.updateItem w.table k (putAssoc m0 key (Dyn.S value))
        (ttlFromMinutes w.nowMs s.ttl)] := by
  have hsv := setValue_loaded s w m0 key value hc
  have hk1 : (setCachedM s (putAssoc m0 key (Dyn.S value))).sessionHash = some k := hk
  have hc1 : cachedM (setCachedM s (putAssoc m0 key (Dyn.S value))) =
      some (putAssoc m0 key (Dyn.S value)) := cachedM_setCachedM s _ m0 hc
  have hupd := updateSession_ok (setCachedM s (putAssoc m0 key (Dyn.S value))) w
    (putAssoc m0 key (Dyn.S value)) (putAssoc m0 key (Dyn.S value)) k hk1 hc1 hf
  rw [hsv, hupd]
  have hcd1 : cachedData (setCachedM (setCachedM s (putAssoc m0 key (Dyn.S value)))
      (putAssoc m0 key (Dyn.S value))) = some (Dyn.M (putAssoc m0 key (Dyn.S value))) :=
    cachedData_setCachedM _ _ _ hc1
  refine ⟨_, _, rfl, ?_, ?_, rfl⟩
  · rw [getValue_of_cachedData_M _ _ hcd1 key "S"]
    rw [lookupAssoc_putAssoc_self m0 key (Dyn.S value)]
    simp [Dyn.prop]
  · intro key2 type hne
    rw [getValue_of_cachedData_M _ _ hcd1 key2 type]
    rw [getValue_of_cachedData_M s m0 (cachedData_of_cachedM s m0 hc) key2 type]
    rw [lookupAssoc_putAssoc_ne m0 key key2 _ hne]

theorem setValue_then_getValue_frame_witness :
    sLoaded.sessionHash = some (sha256Base64 "12345") ∧
    cachedM sLoaded = some [("loggedin", Dyn.BOOL true), ("bsn", Dyn.S "12345678")] ∧
    ∃ s1 w1, setValue sLoaded wEx "bsn" "123" = MRes.ok s1 w1 () ∧
      getValue s1 "bsn" "S" = .ok (some (.pstr "123")) ∧
      (∀ key2 type, key2 ≠ "bsn" → getValue s1 key2 type = getValue sLoaded key2 type) ∧
      w1.trace = wEx.trace ++ [Cmd.updateItem wEx.table (sha256Base64 "12345")
        (putAssoc [("loggedin", Dyn.BOOL true), ("bsn", Dyn.S "12345678")] "bsn" (Dyn.S "123"))
        (ttlFromMinutes wEx.nowMs sLoaded.ttl)] :=
  ⟨rfl, rfl,
    setValue_then_getValue_frame sLoaded wEx
      [("loggedin", Dyn.BOOL true), ("bsn", Dyn.S "12345678")] (sha256Base64 "12345")
      "bsn" "123" rfl rfl rfl⟩

/-- C10: when the store write inside setValue fails, the handle's cached
mapping has already been mutated in place before the write, so getValue k
returns the new value even though the store is unchanged — cache and
store diverge on a failed setValue. The trace shows the update was
issued. -/
theorem setValue_store_failure_cache_diverges (s : SessionState) (w : World) (m0 : AttrMap)
    (k key value : String) (rest : List Bool) (hk : s.sessionHash = some k)
    (hc : cachedM s = some m0) (hf : w.faults = true :: rest) :
    ∃ s1 w1, setValue s w key value = MRes.err Err.storeErr s1 w1 ∧
      getValue s1 key "S" = .ok (some (.pstr value)) ∧
      w1.store = w.store ∧
      w1.trace = w.trace ++ [Cmd.updateItem w.table k (putAssoc m0 key (Dyn.S value))
        (ttlFromMinutes w.nowMs s.ttl)] := by
  have hsv := setValue_loaded s w m0 key value hc
  have hk1 : (setCachedM s (putAssoc m0 key (Dyn.S value))).sessionHash = some k := hk
  have hupd := updateSession_fault (setCachedM s (putAssoc m0 key (Dyn.S value))) w
    (putAssoc m0 key (Dyn.S value)) k rest hk1 hf
  rw [hsv, hupd]
  have hc1 : cachedM (setCachedM s (putAssoc m0 key (Dyn.S value))) =
      some (putAssoc m0 key (Dyn.S value)) := cachedM_setCachedM s _ m0 hc
  refine ⟨_, _, rfl, ?_, rfl, rfl⟩
  rw [getValue_of_cachedData_M _ _ (cachedData_of_cachedM _ _ hc1) key "S"]
  rw [lookupAssoc_putAssoc_self m0 key (Dyn.S value)]
  simp [Dyn.prop]

theorem setValue_store_failure_cache_diverges_witness :
    sLoaded.sessionHash = some (sha256Base64 "12345") ∧
    cachedM sLoaded = some [("loggedin", Dyn.BOOL true), ("bsn", Dyn.S "12345678")] ∧
    ({ wEx with faults := [true] } : World).faults = [true] ∧
    ∃ s1 w1, setValue sLoaded { wEx with faults := [true] } "bsn" "999" =
        MRes.err Err.storeErr s1 w1 ∧
      getValue s1 "bsn" "S" = .ok (some (.pstr "999")) ∧
      w1.store = ({ wEx with faults := [true] } : World).store ∧
      w1.trace = ({ wEx with faults := [true] } : World).trace ++
        [Cmd.updateItem wEx.table (sha256Base64 "12345")
          (putAssoc [("loggedin", Dyn.BOOL true), ("bsn", Dyn.S "12345678")] "bsn" (Dyn.S "999"))
          (ttlFromMinutes wEx.nowMs sLoaded.ttl)] :=
  ⟨rfl, rfl, rfl,
    setValue_store_failure_cache_diverges sLoaded { wEx with faults := [true] }
      [("loggedin", Dyn.BOOL true), ("bsn", Dyn.S "12345678")] (sha256Base64 "12345")
      "bsn" "999" [] rfl rfl rfl⟩

/-- C1: the claim as stated is FALSE at a concrete input. On a fresh
handle (empty cookie) createSession [("user", S "john")] succeeds, yet an
immediate getValue "user" returns undefined (ok none), not "john":
createSession never populates the handle's cached mapping, so the handle
cannot satisfy getValue for the keys just written without a fresh load. -/
theorem createSession_no_cache_cex :
    (createSession (construct "" none) wEx [("user", Dyn.S "john")] "u-1").isOk = true ∧
    getValue (createSession (construct "" none) wEx [("user", Dyn.S "john")] "u-1").st
      "user" "S" = .ok none ∧
    getValue (createSession (construct "" none) wEx [("user", Dyn.S "john")] "u-1").st
      "user" "S" ≠ .ok (some (Prim.pstr "john")) := by
  refine ⟨rfl, rfl, ?_⟩
  rw [show getValue (createSession (construct "" none) wEx [("user", Dyn.S "john")] "u-1").st
      "user" "S" = .ok none from rfl]
  simp

/-- C1 (amended): createSession rebinds the handle to the freshly drawn
token (distinct from the previously supplied token whenever the random
draw is fresh, which crypto.randomUUID guarantees up to negligible
collision probability) and persists the attribute mapping under the
derived key — but it leaves the cached mapping untouched, so getValue can
serve the new attributes only after a subsequent successful init (exactly
what the repository's own integration test does). -/
theorem createSession_fresh_token_needs_reload (s : SessionState) (w : World) (m : AttrMap)
    (uuid : String) (hf : w.faults = []) (hfresh : CookieVal.str uuid ≠ s.sessionId) :
    ∃ s1 w1, createSession s w m uuid = MRes.ok s1 w1 uuid ∧
      s1.sessionId = .str uuid ∧ s1.sessionId ≠ s.sessionId ∧
      s1.session = s.session ∧
      lookupAssoc w1.store (sha256Base64 uuid) =
        some [("sessionid", Dyn.S (sha256Base64 uuid)), ("data", Dyn.M m),
          ("ttl", Dyn.N (ttlFromMinutes w.nowMs s.ttl))] ∧
      ∃ s2 w2 g, init s1 w1 = MRes.ok s2 w2 (some g) ∧
        ∀ key type, getValue s2 key type =
          .ok ((lookupAssoc m key).bind (fun v => v.prop type)) := by
  have hcr := createSession_ok s w m uuid hf
  refine ⟨_, _, hcr, rfl, hfresh, rfl, lookupAssoc_putAssoc_self _ _ _, ?_⟩
  have hini := init_found
    ({ s with sessionHash := some (sha256Base64 uuid), sessionId := .str uuid })
    ({ w with
      trace := w.trace ++ [.putItem w.table (sha256Base64 uuid) m (ttlFromMinutes w.nowMs s.ttl)]
      faults := []
      store := applyPut w.store (sha256Base64 uuid) m (ttlFromMinutes w.nowMs s.ttl) })
    (sha256Base64 uuid)
    [("sessionid", Dyn.S (sha256Base64 uuid)), ("data", Dyn.M m),
      ("ttl", Dyn.N (ttlFromMinutes w.nowMs s.ttl))]
    rfl rfl (lookupAssoc_putAssoc_self _ _ _) (by simp [lookupAssoc])
  refine ⟨_, _, _, hini, ?_⟩
  intro key type
  apply getValue_of_cachedData_M
  show (some (⟨some [("sessionid", Dyn.S (sha256Base64 uuid)), ("data", Dyn.M m),
      ("ttl", Dyn.N (ttlFromMinutes w.nowMs s.ttl))]⟩ : GetOut)).bind
      (fun g => g.Item.bind (fun it => lookupAssoc it "data")) = some (Dyn.M m)
  simp [lookupAssoc]

theorem createSession_fresh_token_needs_reload_witness :
    wEx.faults = [] ∧ CookieVal.str "u-1" ≠ (construct "" none).sessionId ∧
    ∃ s1 w1, createSession (construct "" none) wEx [("user", Dyn.S "john")] "u-1" =
        MRes.ok s1 w1 "u-1" ∧
      s1.sessionId = .str "u-1" ∧ s1.sessionId ≠ (construct "" none).sessionId ∧
      s1.session = (construct "" none).session ∧
      lookupAssoc w1.store (sha256Base64 "u-1") =
        some [("sessionid", Dyn.S (sha256Base64 "u-1")), ("data", Dyn.M [("user", Dyn.S "john")]),
          ("ttl", Dyn.N (ttlFromMinutes wEx.nowMs (construct "" none).ttl))] ∧
      ∃ s2 w2 g, init s1 w1 = MRes.ok s2 w2 (some g) ∧
        ∀ key type, getValue s2 key type =
          .ok ((lookupAssoc [("user", Dyn.S "john")] key).bind (fun v => v.prop type)) :=
  ⟨rfl, by decide,
    createSession_fresh_token_needs_reload (construct "" none) wEx [("user", Dyn.S "john")]
      "u-1" rfl (by decide)⟩

/-- C4: every store command a handle issues is keyed by the base64-encoded
SHA-256 digest of a session token (`deriveKey` is the function
sha256Base64, hence deterministic): the constructor derives the stored
hash from the cookie token, init and updateSession key their commands by
that stored hash, and createSession keys its put by the digest of the
fresh token. The raw token is never used as a key: the digest always has
exactly 44 characters, so any token of a different length (in particular
every 36-character UUID) differs from its digest. -/
theorem store_ops_use_derived_key (cookieStr : String) (o : Option SessionOptions)
    (s : SessionState) (w : World) (m : AttrMap) (tok uuid : String)
    (hk : s.sessionHash = some (sha256Base64 tok)) :
    ((getSessionId cookieStr).truthy = true →
      ∃ t, getSessionId cookieStr = .str t ∧
        (construct cookieStr o).sessionHash = some (sha256Base64 t)) ∧
    (∀ c, c ∈ (init s w).world.trace → c ∈ w.trace ∨ c.key = sha256Base64 tok) ∧
    (∀ c, c ∈ (updateSession s w m).world.trace → c ∈ w.trace ∨ c.key = sha256Base64 tok) ∧
    (∀ c, c ∈ (createSession s w m uuid).world.trace →
      c ∈ w.trace ∨ c.key = sha256Base64 uuid) ∧
    (∀ t : String, t.length ≠ 44 → sha256Base64 t ≠ t) := by
  refine ⟨?_, ?_, ?_, ?_, sha256Base64_ne_of_length⟩
  · intro htr
    cases hsid : getSessionId cookieStr with
    | str v =>
        refine ⟨v, rfl, ?_⟩
        rw [hsid] at htr
        simp only [CookieVal.truthy, decide_eq_true_eq] at htr
        show (match getSessionId cookieStr with
          | CookieVal.str s => if s = "" then none else some (sha256Base64 s)
          | _ => none) = some (sha256Base64 v)
        rw [hsid]
        simp [htr]
    | fls => rw [hsid] at htr; exact absurd htr (by decide)
    | undefined => rw [hsid] at htr; exact absurd htr (by decide)
  · intro c hcmem
    rw [init_world_trace s w _ hk] at hcmem
    rcases List.mem_append.mp hcmem with h | h
    · exact Or.inl h
    · rw [List.mem_singleton] at h
      subst h
      exact Or.inr rfl
  · intro c hcmem
    rw [updateSession_world_trace s w m _ hk] at hcmem
    rcases List.mem_append.mp hcmem with h | h
    · exact Or.inl h
    · rw [List.mem_singleton] at h
      subst h
      exact Or.inr rfl
  · intro c hcmem
    rw [createSession_world_trace s w m uuid] at hcmem
    rcases List.mem_append.mp hcmem with h | h
    · exact Or.inl h
    · rw [List.mem_singleton] at h
      subst h
      exact Or.inr rfl

theorem store_ops_use_derived_key_witness :
    sStale.sessionHash = some (sha256Base64 "12345") ∧
    (((getSessionId "session=12345;").truthy = true →
      ∃ t, getSessionId "session=12345;" = .str t ∧
        (construct "session=12345;" none).sessionHash = some (sha256Base64 t)) ∧
    (∀ c, c ∈ (init sStale wEx).world.trace → c ∈ wEx.trace ∨ c.key = sha256Base64 "12345") ∧
    (∀ c, c ∈ (updateSession sStale wEx [("a", Dyn.S "b")]).world.trace →
      c ∈ wEx.trace ∨ c.key = sha256Base64 "12345") ∧
    (∀ c, c ∈ (createSession sStale wEx [("a", Dyn.S "b")] "u-1").world.trace →
      c ∈ wEx.trace ∨ c.key = sha256Base64 "u-1") ∧
    (∀ t : String, t.length ≠ 44 → sha256Base64 t ≠ t)) :=
  ⟨rfl, store_ops_use_derived_key "session=12345;" none sStale wEx [("a", Dyn.S "b")]
    "12345" "u-1" rfl⟩

/-- C5: every store write sets the persisted expiry to
floor(nowMs / 1000) + configuredTTL * 60 seconds (decimal-rendered):
createSession's put and updateSession's update both carry ttlFromMinutes
of the instance TTL, which defaults to 15 minutes and is overridable per
instance at construction; init issues no write commands at all, so a read
never extends the expiry. -/
theorem writes_set_ttl_reads_never_write (cookieString : String) (mins : Nat)
    (s : SessionState) (w : World) (m : AttrMap) (uuid k : String)
    (hk : s.sessionHash = some k) :
    (construct cookieString none).ttl = 15 ∧
    (construct cookieString (some ⟨mins⟩)).ttl = mins ∧
    ttlFromMinutes w.nowMs s.ttl = toString (w.nowMs / 1000 + s.ttl * 60) ∧
    (createSession s w m uuid).world.trace =
      w.trace ++ [Cmd.putItem w.table (sha256Base64 uuid) m (ttlFromMinutes w.nowMs s.ttl)] ∧
    (updateSession s w m).world.trace =
      w.trace ++ [Cmd.updateItem w.table k m (ttlFromMinutes w.nowMs s.ttl)] ∧
    (∀ c, c ∈ (init s w).world.trace → c ∈ w.trace ∨ c.isWrite = false) := by
  refine ⟨rfl, rfl, ttlFromMinutes_eq w.nowMs s.ttl, createSession_world_trace s w m uuid,
    updateSession_world_trace s w m k hk, ?_⟩
  intro c hcmem
  rw [init_world_trace s w k hk] at hcmem
  rcases List.mem_append.mp hcmem with h | h
  · exact Or.inl h
  · rw [List.mem_singleton] at h
    subst h
    exact Or.inr rfl

theorem writes_set_ttl_reads_never_write_witness :
    sStale.sessionHash = some (sha256Base64 "12345") ∧
    ((construct "" none).ttl = 15 ∧
    (construct "" (some ⟨30⟩)).ttl = 30 ∧
    ttlFromMinutes wEx.nowMs sStale.ttl = toString (wEx.nowMs / 1000 + sStale.ttl * 60) ∧
    (createSession sStale wEx [("a", Dyn.S "b")] "u-1").world.trace =
      wEx.trace ++ [Cmd.putItem wEx.table (sha256Base64 "u-1") [("a", Dyn.S "b")]
        (ttlFromMinutes wEx.nowMs sStale.ttl)] ∧
    (updateSession sStale wEx [("a", Dyn.S "b")]).world.trace =
      wEx.trace ++ [Cmd.updateItem wEx.table (sha256Base64 "12345") [("a", Dyn.S "b")]
        (ttlFromMinutes wEx.nowMs sStale.ttl)] ∧
    (∀ c, c ∈ (init sStale wEx).world.trace → c ∈ wEx.trace ∨ c.isWrite = false)) :=
  ⟨rfl, writes_set_ttl_reads_never_write "" 30 sStale wEx [("a", Dyn.S "b")] "u-1"
    (sha256Base64 "12345") rfl⟩

/-- C9: the claim as stated is FALSE at a concrete input: on the header
"foo=bar" (non-empty, no cookie named "session") getSessionId returns the
JS value `undefined` — the loose comparison `undefined != ''` is true, so
the raw parse result is returned — not the sentinel `false`. -/
theorem getSessionId_missing_cookie_not_false :
    getSessionId "foo=bar" = CookieVal.undefined ∧ getSessionId "foo=bar" ≠ CookieVal.fls :=
  ⟨by decide, by decide⟩

/-- C9 (amended): getSessionId always returns a falsy absent sentinel in
the three absent cases and never throws (it is a total function; the
parser swallows URI-decoding failures), but the literal sentinel is
`false` only for an empty header or an empty `session` value; for a
non-empty header with no `session` cookie it is the JS value `undefined`.
Any other outcome is a non-empty token string. -/
theorem getSessionId_absent_cases (s : String) :
    (s = "" → getSessionId s = CookieVal.fls) ∧
    (s ≠ "" → lookupAssoc (cookieParse s) "session" = some "" → getSessionId s = CookieVal.fls) ∧
    (s ≠ "" → lookupAssoc (cookieParse s) "session" = none → getSessionId s = CookieVal.undefined) ∧
    (getSessionId s = CookieVal.fls ∨ getSessionId s = CookieVal.undefined ∨
      ∃ v, v ≠ "" ∧ getSessionId s = CookieVal.str v) := by
  refine ⟨?_, ?_, ?_, ?_⟩
  · intro h
    simp [getSessionId, h]
  · intro h hl
    simp [getSessionId, h, hl]
  · intro h hl
    simp [getSessionId, h, hl]
  · unfold getSessionId
    by_cases h : s = ""
    · simp [h]
    · simp only [h, if_false]
      cases hl : lookupAssoc (cookieParse s) "session" with
      | none => simp
      | some v =>
          by_cases hv : v = ""
          · simp [hv]
          · exact Or.inr (Or.inr ⟨v, hv, by simp [hv]⟩)

theorem getSessionId_absent_cases_witness :
    getSessionId "" = CookieVal.fls ∧
    getSessionId "session=;" = CookieVal.fls ∧
    getSessionId "a=b" = CookieVal.undefined :=
  ⟨(getSessionId_absent_cases "").1 rfl,
   (getSessionId_absent_cases "session=;").2.1 (by decide) (by decide),
   (getSessionId_absent_cases "a=b").2.2.1 (by decide) (by decide)⟩

